import Mathlib

/-!
Verification of the pyctuator Django-adapter repository against its
natural-language specification.

The repository ships three Python files: the Django adapter
(`pyctuator/impl/django_pyctuator.py`) and two test files.  The
framework-agnostic engine (RingBuffer, LogCapture, LoggerRegistry,
HealthAggregator, RegistrationClient, ...) is referenced by the adapter but its
source is not part of the repository snapshot; those components are modelled
from the specification, as marked in each doc comment.  Everything taken from
`django_pyctuator.py` is translated directly from that file.
-/

namespace Pyctuator

/-! ## RingBuffer (spec §4.1) -/

/-- Modelled from the spec: RingBuffer (§4.1) is absent from src/.  A
fixed-capacity container: `push` appends and, when the buffer is full, the
oldest element is silently discarded first; `snapshot` returns the current
elements in insertion order (oldest → newest).  The single drop expression
discards the oldest element exactly when the buffer is at capacity. -/
structure RingBuffer (α : Type) where
  capacity : Nat
  items : List α
deriving Repr

/-- A freshly constructed, empty ring buffer of the given capacity. -/
def RingBuffer.new (α : Type) (c : Nat) : RingBuffer α := ⟨c, []⟩

/-- Modelled from the spec: `push(item)` appends; if length == capacity the
oldest element is silently discarded first. -/
def RingBuffer.push {α : Type} (b : RingBuffer α) (x : α) : RingBuffer α :=
  ⟨b.capacity, (b.items ++ [x]).drop (b.items.length + 1 - b.capacity)⟩

/-- Modelled from the spec: `snapshot()` returns the current elements in
insertion order, oldest first. -/
def RingBuffer.snapshot {α : Type} (b : RingBuffer α) : List α := b.items

/-- Push a whole sequence of items, left to right. -/
def RingBuffer.pushAll {α : Type} (b : RingBuffer α) (xs : List α) : RingBuffer α :=
  xs.foldl RingBuffer.push b

theorem RingBuffer.push_capacity {α : Type} (b : RingBuffer α) (x : α) :
    (b.push x).capacity = b.capacity := rfl

theorem RingBuffer.push_list_eq {α : Type} (c : Nat) (l : List α) (x : α) :
    (l.drop (l.length - c) ++ [x]).drop ((l.drop (l.length - c)).length + 1 - c) =
      (l ++ [x]).drop ((l ++ [x]).length - c) := by
  have hA : l.drop (l.length - c) ++ [x] = (l ++ [x]).drop (l.length - c) :=
    (List.drop_append_of_le_length (Nat.sub_le _ _)).symm
  rw [hA, List.drop_drop]
  congr 1
  simp only [List.length_drop, List.length_append, List.length_cons,
    List.length_nil]
  omega

theorem RingBuffer.push_drop_eq {α : Type} (c : Nat) (l : List α) (x : α) :
    RingBuffer.push ⟨c, l.drop (l.length - c)⟩ x =
      ⟨c, (l ++ [x]).drop ((l ++ [x]).length - c)⟩ :=
  congrArg (RingBuffer.mk c) (RingBuffer.push_list_eq c l x)

theorem RingBuffer.pushAll_items {α : Type} (c : Nat) (xs : List α) :
    ∀ l : List α,
      (RingBuffer.pushAll ⟨c, l.drop (l.length - c)⟩ xs).items =
        (l ++ xs).drop ((l ++ xs).length - c) := by
  induction xs with
  | nil => intro l; simp [RingBuffer.pushAll]
  | cons x xs ih =>
    intro l
    show (RingBuffer.pushAll (RingBuffer.push ⟨c, l.drop (l.length - c)⟩ x) xs).items = _
    rw [RingBuffer.push_drop_eq, ih (l ++ [x])]
    simp

/-- Items of a buffer built by pushing `xs` into a fresh buffer of capacity
`c`: exactly the last `c` pushed items, in insertion order. -/
theorem RingBuffer.pushAll_new_items {α : Type} (c : Nat) (xs : List α) :
    (RingBuffer.pushAll (RingBuffer.new α c) xs).items = xs.drop (xs.length - c) := by
  have h := RingBuffer.pushAll_items c xs []
  simpa [RingBuffer.new] using h

/-- Claim C4: for every capacity `c` and every sequence of pushes into a fresh
RingBuffer, the length never exceeds `c`; after pushing `c + k` items the
snapshot is exactly the last `c` pushed items in insertion order, the first
`k` having been evicted oldest-first. -/
theorem C4_ring_buffer_bounded_last_capacity (c : Nat) (xs : List Nat) :
    (RingBuffer.pushAll (RingBuffer.new Nat c) xs).items.length ≤ c ∧
    (RingBuffer.pushAll (RingBuffer.new Nat c) xs).snapshot =
      xs.drop (xs.length - c) ∧
    (∀ k : Nat, xs.length = c + k →
      (RingBuffer.pushAll (RingBuffer.new Nat c) xs).snapshot = xs.drop k) := by
  have h := RingBuffer.pushAll_new_items c xs
  refine ⟨?_, ?_, ?_⟩
  · rw [h]
    simp only [List.length_drop]
    omega
  · exact h
  · intro k hk
    rw [RingBuffer.snapshot, h, hk]
    congr 1
    omega

/-- Witness for C4 at capacity 3 and five pushes. -/
theorem C4_ring_buffer_bounded_last_capacity_witness :
    (RingBuffer.pushAll (RingBuffer.new Nat 3) [1, 2, 3, 4, 5]).snapshot =
      [3, 4, 5] :=
  (C4_ring_buffer_bounded_last_capacity 3 [1, 2, 3, 4, 5]).2.2 2 (by decide)

/-! ## LogCapture (spec §4.3) -/

/-- Errors surfaced by the engine on log-range requests (spec §7 taxonomy:
`NotFound` covers unsatisfiable ranges via `RangeNotSatisfiable`,
`InvalidArgument` covers malformed range headers). -/
inductive EngineError where
  | RangeNotSatisfiable
  | InvalidArgument
deriving DecidableEq, Repr

/-- Modelled from the spec: LogCapture (§4.3) is absent from src/.  The
captured log text is a byte sequence that grows by appends. -/
structure LogCapture where
  buf : List Nat
deriving DecidableEq, Repr

/-- Modelled from the spec: `append(line)` appends `line` plus a line
terminator (byte 10) and updates the total length. -/
def LogCapture.append (lc : LogCapture) (line : List Nat) : LogCapture :=
  ⟨lc.buf ++ line ++ [10]⟩

/-- Append a whole sequence of lines, left to right. -/
def LogCapture.appendAll (lc : LogCapture) (lines : List (List Nat)) : LogCapture :=
  lines.foldl LogCapture.append lc

/-- Modelled from the spec: `get_range()` returns metadata describing the
total size of the captured log. -/
def LogCapture.get_range (lc : LogCapture) : Nat := lc.buf.length

/-- A parsed single-range byte-range specifier: `bytes=a-b`, `bytes=a-` or
`bytes=-n` (spec §4.3 and glossary). -/
inductive RangeSpec where
  | closed (a b : Nat)
  | ofStart (a : Nat)
  | suffix (n : Nat)
deriving DecidableEq, Repr

/-- Modelled from the spec: resolution of the open-ended range forms against
the current total byte length, mirroring standard byte-range semantics:
`bytes=a-` runs from `a` to the last byte, `bytes=-n` denotes the last `n`
bytes. -/
def resolveRange (r : RangeSpec) (total : Nat) : Nat × Nat :=
  match r with
  | RangeSpec.closed a b => (a, b)
  | RangeSpec.ofStart a => (a, total - 1)
  | RangeSpec.suffix n => (total - n, total - 1)

/-- Modelled from the spec: `get_logfile` on an already-parsed range fails
with `RangeNotSatisfiable` when the resolved start exceeds the current total
length or exceeds the resolved end, and otherwise returns the inclusive byte
slice `[start, end]` together with the resolved start and end. -/
def LogCapture.get_logfile (lc : LogCapture) (r : RangeSpec) :
    Except EngineError (List Nat × Nat × Nat) :=
  let total := lc.buf.length
  let se := resolveRange r total
  if se.1 > total ∨ se.1 > se.2 then
    Except.error EngineError.RangeNotSatisfiable
  else
    Except.ok ((lc.buf.drop se.1).take (se.2 + 1 - se.1), se.1, se.2)

/-- Digit-by-digit accumulator for parsing a decimal number. -/
def parseNatStep (acc : Option Nat) (c : Char) : Option Nat :=
  match acc with
  | some n => if c.isDigit then some (n * 10 + (c.toNat - 48)) else none
  | none => none

/-- Parse a nonempty all-digit character list as a decimal number. -/
def parseNat (cs : List Char) : Option Nat :=
  if cs.isEmpty then none else cs.foldl parseNatStep (some 0)

/-- Parse a `Range` header of the forms `bytes=a-b`, `bytes=a-` and
`bytes=-n`; anything else is malformed. -/
def parseRange (s : String) : Option RangeSpec :=
  match s.toList with
  | 'b' :: 'y' :: 't' :: 'e' :: 's' :: '=' :: rest =>
    let before := rest.takeWhile (fun c => c != '-')
    let after := rest.dropWhile (fun c => c != '-')
    match after with
    | '-' :: afterDash =>
      if before.isEmpty then (parseNat afterDash).map RangeSpec.suffix
      else if afterDash.isEmpty then (parseNat before).map RangeSpec.ofStart
      else
        match parseNat before, parseNat afterDash with
        | some a, some b => some (RangeSpec.closed a b)
        | _, _ => none
    | _ => none
  | _ => none

/-- `get_logfile` on a raw header string: a header that does not parse is
malformed input (`InvalidArgument` in the spec §7 taxonomy). -/
def LogCapture.get_logfile_header (lc : LogCapture) (h : String) :
    Except EngineError (List Nat × Nat × Nat) :=
  match parseRange h with
  | none => Except.error EngineError.InvalidArgument
  | some r => lc.get_logfile r

theorem LogCapture.get_logfile_ofStart_zero (lc : LogCapture) :
    lc.get_logfile (RangeSpec.ofStart 0) = Except.ok (lc.buf, 0, lc.buf.length - 1) := by
  simp only [LogCapture.get_logfile, resolveRange]
  rw [if_neg (by omega)]
  rw [List.drop_zero, List.take_of_length_le (by omega)]

theorem LogCapture.get_logfile_suffix_last (lc : LogCapture) (n : Nat)
    (h1 : 1 ≤ n) (h : n ≤ lc.buf.length) :
    lc.get_logfile (RangeSpec.suffix n) =
      Except.ok (lc.buf.drop (lc.buf.length - n), lc.buf.length - n,
        lc.buf.length - 1) := by
  simp only [LogCapture.get_logfile, resolveRange]
  rw [if_neg (by omega)]
  rw [List.take_of_length_le (by simp only [List.length_drop]; omega)]

/-- Claim C1: `get_logfile` fails with `RangeNotSatisfiable` exactly when the
resolved start exceeds the current total byte length or the resolved end;
otherwise it returns the inclusive byte slice `[start, end]` with the
resolved start and end.  `bytes=0-` parses to the from-0 form and returns the
full captured text after any sequence of appends; `bytes=-5` parses to the
suffix form and returns exactly the last 5 bytes when at least 5 are
present. -/
theorem C1_get_logfile_range_semantics :
    parseRange "bytes=0-" = some (RangeSpec.ofStart 0) ∧
    parseRange "bytes=-5" = some (RangeSpec.suffix 5) ∧
    (∀ (lc : LogCapture) (r : RangeSpec),
      lc.get_logfile r = Except.error EngineError.RangeNotSatisfiable ↔
        ((resolveRange r lc.buf.length).1 > lc.buf.length ∨
          (resolveRange r lc.buf.length).1 > (resolveRange r lc.buf.length).2)) ∧
    (∀ (lc : LogCapture) (r : RangeSpec) (s e : Nat),
      resolveRange r lc.buf.length = (s, e) →
      ¬(s > lc.buf.length ∨ s > e) →
      lc.get_logfile r = Except.ok ((lc.buf.drop s).take (e + 1 - s), s, e)) ∧
    (∀ lines : List (List Nat),
      (LogCapture.appendAll ⟨[]⟩ lines).get_logfile (RangeSpec.ofStart 0) =
        Except.ok ((LogCapture.appendAll ⟨[]⟩ lines).buf, 0,
          (LogCapture.appendAll ⟨[]⟩ lines).buf.length - 1)) ∧
    (∀ lc : LogCapture, 5 ≤ lc.buf.length →
      lc.get_logfile (RangeSpec.suffix 5) =
        Except.ok (lc.buf.drop (lc.buf.length - 5), lc.buf.length - 5,
          lc.buf.length - 1)) := by
  refine ⟨by decide, by decide, ?_, ?_, ?_, ?_⟩
  · intro lc r
    by_cases h : (resolveRange r lc.buf.length).1 > lc.buf.length ∨
        (resolveRange r lc.buf.length).1 > (resolveRange r lc.buf.length).2
    · simp [LogCapture.get_logfile, h]
    · simp [LogCapture.get_logfile, h]
  · intro lc r s e hres hcond
    simp [LogCapture.get_logfile, hres, hcond]
  · intro lines
    exact LogCapture.get_logfile_ofStart_zero (LogCapture.appendAll ⟨[]⟩ lines)
  · intro lc h
    exact LogCapture.get_logfile_suffix_last lc 5 (by omega) h

/-- Witness for C1: on the six-byte capture `ABCDEF`, the suffix form
`bytes=-5` yields exactly the last five bytes with resolved range 1–5. -/
theorem C1_get_logfile_range_semantics_witness :
    LogCapture.get_logfile ⟨[65, 66, 67, 68, 69, 70]⟩ (RangeSpec.suffix 5) =
      Except.ok ([66, 67, 68, 69, 70], 1, 5) :=
  C1_get_logfile_range_semantics.2.2.2.2.2 ⟨[65, 66, 67, 68, 69, 70]⟩
    (by decide)

/-! ## HealthAggregator (spec §4.6) -/

/-- Health statuses (spec §3). -/
inductive HealthStatus where
  | UP
  | DOWN
  | UNKNOWN
  | OUT_OF_SERVICE
deriving DecidableEq, Repr

/-- Modelled from the spec: a HealthReport is a status plus named nested
sub-reports (spec §3 data model). -/
inductive HealthReport where
  | mk (status : HealthStatus) (details : List (String × HealthReport))

/-- The top-level status of a report. -/
def HealthReport.status : HealthReport → HealthStatus
  | HealthReport.mk s _ => s

/-- The named nested sub-reports of a report. -/
def HealthReport.details : HealthReport → List (String × HealthReport)
  | HealthReport.mk _ d => d

mutual

/-- Whether a report signals DOWN directly or in any nested sub-report. -/
def reportsDown : HealthReport → Bool
  | HealthReport.mk s details =>
    s == HealthStatus.DOWN || reportsDownChildren details

/-- Whether any report in a named list signals DOWN directly or nested. -/
def reportsDownChildren : List (String × HealthReport) → Bool
  | [] => false
  | (_, r) :: rest => reportsDown r || reportsDownChildren rest

end

/-- Modelled from the spec: `get_health()` invokes every indicator, folds the
statuses with the DOWN-dominance rule of §3 and attaches each indicator's
report under its name in `details`: DOWN if any indicator reports DOWN
directly or nested, UP when all indicators report UP, UNKNOWN otherwise. -/
def get_health (indicators : List (String × HealthReport)) : HealthReport :=
  HealthReport.mk
    (if reportsDownChildren indicators then HealthStatus.DOWN
     else if indicators.all (fun p => p.2.status == HealthStatus.UP) then
        HealthStatus.UP
     else HealthStatus.UNKNOWN)
    indicators

theorem reportsDownChildren_iff (l : List (String × HealthReport)) :
    reportsDownChildren l = true ↔ ∃ p ∈ l, reportsDown p.2 = true := by
  induction l with
  | nil => simp [reportsDownChildren]
  | cons hd tl ih =>
    cases hd with
    | mk n r =>
      simp only [reportsDownChildren, Bool.or_eq_true, ih, List.mem_cons]
      constructor
      · intro h
        rcases h with h | ⟨p, hp, hdown⟩
        · exact ⟨(n, r), Or.inl rfl, h⟩
        · exact ⟨p, Or.inr hp, hdown⟩
      · intro ⟨p, hp, hdown⟩
        rcases hp with rfl | hp
        · exact Or.inl hdown
        · exact Or.inr ⟨p, hp, hdown⟩

@[simp]
theorem HealthReport.status_mk (s : HealthStatus)
    (d : List (String × HealthReport)) : (HealthReport.mk s d).status = s := rfl

/-- Claim C3: the aggregated report has status DOWN iff at least one
indicator reports DOWN directly or nested, and has status UP only if every
indicator reports UP. -/
theorem C3_health_down_dominance (indicators : List (String × HealthReport)) :
    ((get_health indicators).status = HealthStatus.DOWN ↔
      ∃ p ∈ indicators, reportsDown p.2 = true) ∧
    ((get_health indicators).status = HealthStatus.UP →
      ∀ p ∈ indicators, p.2.status = HealthStatus.UP) := by
  constructor
  · rw [← reportsDownChildren_iff]
    simp only [get_health, HealthReport.status_mk]
    by_cases h : reportsDownChildren indicators = true
    · rw [h]; simp
    · rw [Bool.not_eq_true] at h
      rw [h]
      by_cases hall : (indicators.all fun p => p.2.status == HealthStatus.UP) = true
      · rw [hall]; simp
      · rw [Bool.not_eq_true] at hall
        rw [hall]; simp
  · intro hup p hp
    simp only [get_health, HealthReport.status_mk] at hup
    by_cases h : reportsDownChildren indicators = true
    · rw [h] at hup; simp at hup
    · rw [Bool.not_eq_true] at h
      rw [h] at hup
      by_cases hall : (indicators.all fun p => p.2.status == HealthStatus.UP) = true
      · rw [List.all_eq_true] at hall
        exact beq_iff_eq.mp (hall p hp)
      · rw [Bool.not_eq_true] at hall
        rw [hall] at hup
        simp at hup

/-- Witness for C3: one UP indicator and one indicator with a nested DOWN
detail give an aggregated DOWN status. -/
theorem C3_health_down_dominance_witness :
    (get_health
      [("db", HealthReport.mk HealthStatus.UP []),
       ("disk", HealthReport.mk HealthStatus.UP
          [("inner", HealthReport.mk HealthStatus.DOWN [])])]).status =
      HealthStatus.DOWN :=
  (C3_health_down_dominance
    [("db", HealthReport.mk HealthStatus.UP []),
     ("disk", HealthReport.mk HealthStatus.UP
        [("inner", HealthReport.mk HealthStatus.DOWN [])])]).1.mpr
    ⟨("disk", HealthReport.mk HealthStatus.UP
        [("inner", HealthReport.mk HealthStatus.DOWN [])]),
      by simp, rfl⟩

/-- Modelled from the spec: `http_status()` on a HealthReport maps UP and
UNKNOWN to 200 and DOWN and OUT_OF_SERVICE to 503 (spec §4.6). -/
def HealthReport.http_status (r : HealthReport) : Nat :=
  match r.status with
  | HealthStatus.UP => 200
  | HealthStatus.UNKNOWN => 200
  | HealthStatus.DOWN => 503
  | HealthStatus.OUT_OF_SERVICE => 503

/-- An HTTP response carrying a health report, as built by the Django
adapter. -/
structure HealthHttpResponse where
  body : HealthReport
  status : Nat

/-- The `health` view of `django_pyctuator.py` (lines 68–76): fetches
`get_health()` and returns a JSON response whose HTTP status is the report's
`http_status()`. -/
def health (indicators : List (String × HealthReport)) : HealthHttpResponse :=
  let h := get_health indicators
  ⟨h, h.http_status⟩

/-- Claim C9: `http_status()` is 200 exactly on UP and UNKNOWN and 503
exactly on DOWN and OUT_OF_SERVICE, and the health endpoint uses exactly this
value as its HTTP response status. -/
theorem C9_health_http_status (r : HealthReport)
    (indicators : List (String × HealthReport)) :
    (r.http_status = 200 ↔
      (r.status = HealthStatus.UP ∨ r.status = HealthStatus.UNKNOWN)) ∧
    (r.http_status = 503 ↔
      (r.status = HealthStatus.DOWN ∨ r.status = HealthStatus.OUT_OF_SERVICE)) ∧
    (health indicators).status = (get_health indicators).http_status := by
  refine ⟨?_, ?_, rfl⟩
  · unfold HealthReport.http_status
    cases h : r.status <;> simp
  · unfold HealthReport.http_status
    cases h : r.status <;> simp

/-- Witness for C9: a DOWN report gets HTTP status 503, and the health view
of one DOWN indicator reports the aggregated report's `http_status()`. -/
theorem C9_health_http_status_witness :
    (HealthReport.mk HealthStatus.DOWN []).http_status = 503 ∧
    (health [("db", HealthReport.mk HealthStatus.DOWN [])]).status =
      (get_health [("db", HealthReport.mk HealthStatus.DOWN [])]).http_status :=
  ⟨(C9_health_http_status (HealthReport.mk HealthStatus.DOWN [])
      [("db", HealthReport.mk HealthStatus.DOWN [])]).2.1.mpr (Or.inl rfl),
    (C9_health_http_status (HealthReport.mk HealthStatus.DOWN [])
      [("db", HealthReport.mk HealthStatus.DOWN [])]).2.2⟩

/-! ## LoggerRegistry (spec §4.5) and the `loggers` view -/

/-- Modelled from the spec: LoggerRegistry (§4.5) is absent from src/.  It
tracks the configured severity level of each named logger; absence of a
configured level means the level is inherited from the logging hierarchy. -/
structure LoggerRegistry where
  configured : String → Option String

/-- A logger's configuration as returned by `get_logger` (spec §3).  The
effective-level resolution delegates to the underlying logging hierarchy,
an external collaborator, and is not part of the registry state. -/
structure LoggerConfig where
  name : String
  configured_level : Option String

/-- Modelled from the spec: `set_logger_level(name, level)` sets the
configured level for `name`; `level = null` resets it to inherited. -/
def set_logger_level (reg : LoggerRegistry) (name : String)
    (level : Option String) : LoggerRegistry :=
  ⟨fun n => if n = name then level else reg.configured n⟩

/-- Modelled from the spec: `get_logger(name)` returns the logger's
configuration. -/
def get_logger (reg : LoggerRegistry) (name : String) : LoggerConfig :=
  ⟨name, reg.configured name⟩

/-- A call the `loggers` view makes into the engine. -/
inductive EngineCall where
  | setLoggerLevel (name : Option String) (level : Option String)
  | getLogger (name : String)
  | getLoggers
deriving DecidableEq, Repr

/-- The observable outcome of the `loggers` view: the engine calls it makes
and the HTTP status of its JSON response. -/
structure LoggersViewResult where
  calls : List EngineCall
  status : Nat
deriving DecidableEq, Repr

/-- The `configuredLevel` field of a POST body, as read by the view with
`data.get("configuredLevel", None)`: an absent key and an explicit null both
yield `none`. -/
def bodyConfiguredLevel (body : List (String × Option String)) : Option String :=
  match body.lookup "configuredLevel" with
  | some v => v
  | none => none

/-- The `loggers` view of `django_pyctuator.py` (lines 102–122): on POST it
always calls `set_logger_level(logger_name, data.get("configuredLevel",
None))` — the source carries `# TODO: throw if empty logger_name` and
performs no such check — and returns an empty JSON body with status 200; on
GET it fetches one logger when a name is present and all loggers
otherwise. -/
def loggers (method : String) (logger_name : Option String)
    (body : List (String × Option String)) : LoggersViewResult :=
  if method = "POST" then
    ⟨[EngineCall.setLoggerLevel logger_name (bodyConfiguredLevel body)], 200⟩
  else
    match logger_name with
    | some n => ⟨[EngineCall.getLogger n], 200⟩
    | none => ⟨[EngineCall.getLoggers], 200⟩

/-- Claim C2 counter-evidence (code bug): a POST set-logger-level request
with an empty logger name is not rejected — the view forwards the call to
`set_logger_level` with the empty name and answers 200, despite the source's
own `# TODO: throw if empty logger_name` comment. -/
theorem C2_empty_logger_name_not_rejected :
    loggers "POST" none [("configuredLevel", some "DEBUG")] =
      ⟨[EngineCall.setLoggerLevel none (some "DEBUG")], 200⟩ := by
  decide

/-- Claim C7: `set_logger_level(x, L)` makes `get_logger(x).configured_level`
equal to `L`; `set_logger_level(x, null)` clears it back to inherited; and a
POST whose body omits `configuredLevel` behaves exactly as one carrying an
explicit null. -/
theorem C7_set_logger_level_roundtrip (reg : LoggerRegistry) (x : String)
    (level : String) (body : List (String × Option String)) :
    (get_logger (set_logger_level reg x (some level)) x).configured_level =
      some level ∧
    (get_logger (set_logger_level reg x none) x).configured_level = none ∧
    (body.lookup "configuredLevel" = none →
      loggers "POST" (some x) body =
        loggers "POST" (some x) [("configuredLevel", none)]) := by
  refine ⟨?_, ?_, ?_⟩
  · simp [get_logger, set_logger_level]
  · simp [get_logger, set_logger_level]
  · intro hmiss
    simp [loggers, bodyConfiguredLevel, hmiss]

/-- Witness for C7: setting `DEBUG` on logger `x` in the empty registry and
reading it back, and a POST with an empty body acting as a null set. -/
theorem C7_set_logger_level_roundtrip_witness :
    (get_logger (set_logger_level ⟨fun _ => none⟩ "x" (some "DEBUG"))
        "x").configured_level = some "DEBUG" ∧
    loggers "POST" (some "x") [] =
      loggers "POST" (some "x") [("configuredLevel", none)] :=
  ⟨(C7_set_logger_level_roundtrip ⟨fun _ => none⟩ "x" "DEBUG" []).1,
    (C7_set_logger_level_roundtrip ⟨fun _ => none⟩ "x" "DEBUG" []).2.2 rfl⟩

/-! ## The `logfile` view (django_pyctuator.py lines 125–143) -/

/-- Body of a `logfile` response: either the `get_range()` metadata (no
range requested) or the sliced log text. -/
inductive LogfileBody where
  | metadata (total : Nat)
  | text (bytes : List Nat)
deriving DecidableEq, Repr

/-- The observable parts of a `logfile` HTTP response: status code, the
`Accept-Ranges` and `Content-Range` headers, and the body. -/
structure LogfileHttpResponse where
  status : Nat
  accept_ranges : Option String
  content_range : Option String
  body : LogfileBody
deriving DecidableEq, Repr

/-- The `Content-Range` header value built by the view:
`f"bytes {start}-{end}/{end}"`. -/
def contentRangeValue (s e : Nat) : String :=
  "bytes " ++ toString s ++ "-" ++ toString e ++ "/" ++ toString e

/-- The `logfile` view of `django_pyctuator.py` (lines 125–143): with no
`Range` header (absent or empty, the source's falsiness test) it returns the
`get_range()` metadata; otherwise it slices via `get_logfile` and answers
206 Partial Content with `Accept-Ranges: bytes` and
`Content-Range: bytes start-end/end`. -/
def logfile (lc : LogCapture) (range_header : Option String) :
    Except EngineError LogfileHttpResponse :=
  match range_header with
  | none => Except.ok ⟨200, none, none, LogfileBody.metadata lc.get_range⟩
  | some h =>
    if h = "" then
      Except.ok ⟨200, none, none, LogfileBody.metadata lc.get_range⟩
    else
      (lc.get_logfile_header h).map fun res =>
        ⟨206, some "bytes", some (contentRangeValue res.2.1 res.2.2),
          LogfileBody.text res.1⟩

theorem parseRange_ne_empty (r : RangeSpec) (h : parseRange "" = some r) :
    False := by
  simp [parseRange, String.toList] at h

/-- Claim C5: with no `Range` header the response body is the `get_range()`
metadata; with a `Range` header whose slice succeeds, the response is 206
with `Accept-Ranges: bytes` and `Content-Range: bytes start-end/end` for the
resolved start and end. -/
theorem C5_logfile_view_responses (lc : LogCapture) :
    logfile lc none =
      Except.ok ⟨200, none, none, LogfileBody.metadata lc.get_range⟩ ∧
    (∀ (h : String) (r : RangeSpec) (content : List Nat) (s e : Nat),
      parseRange h = some r →
      lc.get_logfile r = Except.ok (content, s, e) →
      logfile lc (some h) =
        Except.ok ⟨206, some "bytes", some (contentRangeValue s e),
          LogfileBody.text content⟩) := by
  constructor
  · rfl
  · intro h r content s e hparse hslice
    have hne : h ≠ "" := by
      intro hempty
      rw [hempty] at hparse
      exact parseRange_ne_empty r hparse
    simp [logfile, hne, LogCapture.get_logfile_header, hparse, hslice,
      Except.map]

/-- Witness for C5: three captured bytes and the header `bytes=1-2` give a
206 response with `Content-Range: bytes 1-2/2` and the two middle bytes. -/
theorem C5_logfile_view_responses_witness :
    logfile ⟨[65, 66, 67]⟩ (some "bytes=1-2") =
      Except.ok ⟨206, some "bytes", some (contentRangeValue 1 2),
        LogfileBody.text [66, 67]⟩ :=
  (C5_logfile_view_responses ⟨[65, 66, 67]⟩).2 "bytes=1-2"
    (RangeSpec.closed 1 2) [66, 67] 1 2 (by decide) (by rfl)

/-! ## TraceRecorder and DjangoPyctuatorMiddleware (spec §4.2,
django_pyctuator.py lines 146–187) -/

/-- The request part of a trace record (`pyctuator.httptrace.TraceRequest`). -/
structure TraceRequest where
  method : String
  uri : String
  headers : List (String × List String)
deriving DecidableEq, Repr

/-- The response part of a trace record
(`pyctuator.httptrace.TraceResponse`). -/
structure TraceResponse where
  status_code : Nat
  headers : List (String × List String)
deriving DecidableEq, Repr

/-- One recorded HTTP exchange (`pyctuator.httptrace.TraceRecord`); the two
always-`None` fields of the source constructor call are omitted, times are
modelled as milliseconds. -/
structure TraceRecord where
  request_time : Nat
  request : TraceRequest
  response : TraceResponse
  duration_ms : Nat
deriving DecidableEq, Repr

/-- An inbound Django request as seen by the middleware: optional method
(`request.method or "GET"`), absolute URI and headers. -/
structure DjangoRequest where
  method : Option String
  uri : String
  headers : List (String × String)
deriving DecidableEq, Repr

/-- The response produced by the wrapped view. -/
structure DjangoResponse where
  status_code : Nat
  headers : List (String × String)
deriving DecidableEq, Repr

/-- `_create_headers_dictionary` (lines 160–164): each header key maps to the
list of its values; Django's header mapping has unique keys, so each key
gets a singleton list. -/
def create_headers_dictionary (hs : List (String × String)) :
    List (String × List String) :=
  hs.map fun kv => (kv.1, [kv.2])

/-- `_create_record` (lines 166–187): builds one TraceRecord from the
request, the response and the two timestamps; `duration_ms` is the elapsed
time in milliseconds. -/
def create_record (request : DjangoRequest) (response : DjangoResponse)
    (request_time response_time : Nat) : TraceRecord :=
  ⟨request_time,
    ⟨request.method.getD "GET", request.uri,
      create_headers_dictionary request.headers⟩,
    ⟨response.status_code, create_headers_dictionary response.headers⟩,
    response_time - request_time⟩

/-- Modelled from the spec: the trace recorder (§4.2) is absent from src/; it
records completed exchanges into a RingBuffer of trace records. -/
structure HttpTracer where
  buffer : RingBuffer TraceRecord

/-- Modelled from the spec: `add_record(record)` pushes into the
RingBuffer. -/
def HttpTracer.add_record (t : HttpTracer) (record : TraceRecord) : HttpTracer :=
  ⟨t.buffer.push record⟩

/-- The body returned by the `httptrace` endpoint. -/
structure HttpTraces where
  traces : List TraceRecord

/-- Modelled from the spec: `get_httptrace()` returns `{traces: snapshot}`,
newest last, matching insertion order. -/
def HttpTracer.get_httptrace (t : HttpTracer) : HttpTraces :=
  ⟨t.buffer.snapshot⟩

/-- `DjangoPyctuatorMiddleware.__call__` (lines 150–158): runs the wrapped
handler, builds one TraceRecord from the exchange and adds it to the
tracer, then returns the handler's response unchanged. -/
def middleware_call (tracer : HttpTracer)
    (get_response : DjangoRequest → DjangoResponse) (request : DjangoRequest)
    (request_time response_time : Nat) : DjangoResponse × HttpTracer :=
  let response := get_response request
  let record := create_record request response request_time response_time
  (response, tracer.add_record record)

/-- Claim C6: each completed exchange adds exactly one TraceRecord (the
tracer advances by a single `add_record` push, and when the buffer is below
capacity the trace list grows by exactly that record at the end), the
response passes through unchanged, and `get_httptrace()` returns
`{traces: snapshot}` in insertion order, newest last. -/
theorem C6_middleware_records_one_trace (tracer : HttpTracer)
    (get_response : DjangoRequest → DjangoResponse) (request : DjangoRequest)
    (request_time response_time : Nat) :
    (middleware_call tracer get_response request request_time response_time).1 =
      get_response request ∧
    (middleware_call tracer get_response request request_time response_time).2 =
      tracer.add_record
        (create_record request (get_response request) request_time
          response_time) ∧
    (∀ t : HttpTracer, t.get_httptrace.traces = t.buffer.items) ∧
    (tracer.buffer.items.length < tracer.buffer.capacity →
      (middleware_call tracer get_response request request_time
          response_time).2.get_httptrace.traces =
        tracer.get_httptrace.traces ++
          [create_record request (get_response request) request_time
            response_time]) := by
  refine ⟨rfl, rfl, fun t => rfl, ?_⟩
  intro hlt
  show (tracer.buffer.push _).items = tracer.buffer.items ++ _
  unfold RingBuffer.push
  rw [Nat.sub_eq_zero_of_le (by omega), List.drop_zero]

/-- Witness for C6: a single traced exchange on an empty two-slot tracer
leaves exactly the one created record in the trace list. -/
theorem C6_middleware_records_one_trace_witness :
    (middleware_call ⟨RingBuffer.new TraceRecord 2⟩
        (fun _ => ⟨200, [("a", "b")]⟩) ⟨some "GET", "http://h/x", []⟩ 3
        7).2.get_httptrace.traces =
      [create_record ⟨some "GET", "http://h/x", []⟩ ⟨200, [("a", "b")]⟩ 3 7] :=
  (C6_middleware_records_one_trace ⟨RingBuffer.new TraceRecord 2⟩
      (fun _ => ⟨200, [("a", "b")]⟩) ⟨some "GET", "http://h/x", []⟩ 3
      7).2.2.2 (by decide)

/-! ## RegistrationClient (spec §4.7) -/

/-- Modelled from the spec: RegistrationState (§3) is absent from src/.
`instance_id` is set after the first successful registration; the shutdown
path reads it to decide whether to deregister (the test server's `atexit` at
django_test_server.py lines 115–117 invokes that path). -/
structure RegistrationState where
  instance_id : Option String
  consecutive_failures : Nat
  timer_running : Bool
  stopped : Bool
deriving DecidableEq, Repr

/-- An outward request issued by the registration client. -/
inductive RegAction where
  | deregister
deriving DecidableEq, Repr

/-- Modelled from the spec: one timer tick attempts a registration; success
yields an `instance_id`, failure increments `consecutive_failures` and is
never surfaced (§4.7). -/
def registration_tick (s : RegistrationState) (result : Option String) :
    RegistrationState :=
  if s.stopped then s
  else
    match result with
    | some iid => ⟨some iid, 0, s.timer_running, s.stopped⟩
    | none =>
      ⟨s.instance_id, s.consecutive_failures + 1, s.timer_running, s.stopped⟩

/-- Modelled from the spec: on explicit stop, if an `instance_id` was ever
obtained, one best-effort deregistration request is issued before the timer
is halted; a deregistration failure is swallowed (logged only), so the
outcome is independent of `dereg_ok`.  A second stop is a no-op (§5). -/
def registration_stop (s : RegistrationState) (dereg_ok : Bool) :
    RegistrationState × List RegAction :=
  if s.stopped then (s, [])
  else
    match s.instance_id with
    | some iid => (⟨some iid, s.consecutive_failures, false, true⟩,
        [RegAction.deregister])
    | none => (⟨none, s.consecutive_failures, false, true⟩, [])

/-- Claim C8: stopping a running client issues exactly one deregistration
request when an `instance_id` was ever obtained and none otherwise; the
timer is halted; and a failing deregistration changes nothing — the stop
outcome is identical for success and failure. -/
theorem C8_stop_deregisters_once (s : RegistrationState) (ok1 ok2 : Bool) :
    (s.stopped = false → s.instance_id.isSome = true →
      (registration_stop s ok1).2 = [RegAction.deregister]) ∧
    (s.stopped = false → s.instance_id = none →
      (registration_stop s ok1).2 = []) ∧
    (s.stopped = false → (registration_stop s ok1).1.timer_running = false) ∧
    registration_stop s ok1 = registration_stop s ok2 ∧
    (s.stopped = false → ∀ iid : String,
      (registration_tick s (some iid)).instance_id = some iid) := by
  refine ⟨?_, ?_, ?_, rfl, ?_⟩
  · intro hrun hsome
    cases hid : s.instance_id with
    | none => rw [hid] at hsome; simp at hsome
    | some iid => simp [registration_stop, hrun, hid]
  · intro hrun hnone
    simp [registration_stop, hrun, hnone]
  · intro hrun
    cases hid : s.instance_id with
    | none => simp [registration_stop, hrun, hid]
    | some iid => simp [registration_stop, hrun, hid]
  · intro hrun iid
    simp [registration_tick, hrun]

/-- Witness for C8: a client that registered once (obtaining id `i-1`) and is
then stopped issues exactly one deregistration request. -/
theorem C8_stop_deregisters_once_witness :
    (registration_stop
        (registration_tick ⟨none, 0, true, false⟩ (some "i-1")) true).2 =
      [RegAction.deregister] :=
  (C8_stop_deregisters_once
      (registration_tick ⟨none, 0, true, false⟩ (some "i-1")) true false).1
    (by decide) (by decide)

/-! ## DjangoPyctuator.inject_middleware (django_pyctuator.py lines
228–235) -/

/-- The dotted path of the middleware class the adapter injects. -/
def middlewareClassName : String :=
  "pyctuator.impl.django_pyctuator.DjangoPyctuatorMiddleware"

/-- `inject_middleware` (lines 228–235): if the middleware class path is not
already in `settings.MIDDLEWARE`, insert it at position 0. -/
def inject_middleware (mw : List String) : List String :=
  if middlewareClassName ∈ mw then mw else middlewareClassName :: mw

theorem inject_middleware_mem (mw : List String) :
    middlewareClassName ∈ inject_middleware mw := by
  unfold inject_middleware
  by_cases h : middlewareClassName ∈ mw
  · rw [if_pos h]; exact h
  · rw [if_neg h]; exact List.mem_cons_self _ _

theorem inject_middleware_of_mem (mw : List String)
    (h : middlewareClassName ∈ mw) : inject_middleware mw = mw :=
  if_pos h

theorem inject_middleware_iterate (n : Nat) (mw : List String)
    (h : middlewareClassName ∈ mw) : inject_middleware^[n] mw = mw := by
  induction n with
  | zero => rfl
  | succ n ih =>
    rw [Function.iterate_succ_apply, inject_middleware_of_mem mw h, ih]

/-- Claim C10: `inject_middleware` is idempotent — after any number of calls
the middleware entry occurs at most once more than initially; if it was
absent it is inserted exactly once, at position 0, with all pre-existing
entries preserved in order after it. -/
theorem C10_inject_middleware_idempotent (mw : List String) (n : Nat) :
    (inject_middleware^[n] mw).count middlewareClassName ≤
      mw.count middlewareClassName + 1 ∧
    (middlewareClassName ∉ mw →
      inject_middleware mw = middlewareClassName :: mw) ∧
    inject_middleware (inject_middleware mw) = inject_middleware mw := by
  refine ⟨?_, fun h => if_neg h, inject_middleware_of_mem _ (inject_middleware_mem mw)⟩
  cases n with
  | zero => exact Nat.le_succ_of_le (Nat.le_refl _)
  | succ n =>
    rw [Function.iterate_succ_apply,
      inject_middleware_iterate n _ (inject_middleware_mem mw)]
    unfold inject_middleware
    by_cases h : middlewareClassName ∈ mw
    · rw [if_pos h]; exact Nat.le_succ_of_le (Nat.le_refl _)
    · rw [if_neg h, List.count_cons_self]

/-- Witness for C10: injecting into the test server's initial middleware
list (django_test_server.py lines 28–31) three times inserts the class path
exactly once, at the front. -/
theorem C10_inject_middleware_idempotent_witness :
    inject_middleware ["django.middleware.locale.LocaleMiddleware",
        "django.middleware.common.CommonMiddleware"] =
      middlewareClassName :: ["django.middleware.locale.LocaleMiddleware",
        "django.middleware.common.CommonMiddleware"] :=
  (C10_inject_middleware_idempotent
      ["django.middleware.locale.LocaleMiddleware",
        "django.middleware.common.CommonMiddleware"] 3).2.1 (by decide)

end Pyctuator
